import Mathlib

/-!
Verification of the adaptive item-selection core of the ORRT repository
(src/src/index.ts, with a near-duplicate variant in src/unnamed/part_000).

The embedding below translates, from the TypeScript source:

* the item bank data model (interface WordItem, interface Response),
* the configuration record (interface CATConfig, the CAT_CONFIG defaults),
* word difficulty assignment (ORRWordBankLoader.calculateDifficulty),
* the starting-ability lookup (getStartPoint),
* item selection (selectNextItem, in both its index.ts form and its
  part_000 form, which differ in one fallback),
* ability estimation (updateAbilityEstimate),
* the precision estimate (calculateStandardError),
* the stopping rule (shouldStopTest),
* the response-recording / undo handler (the on_finish callback of
  createSpacebarTrial, acting on the mutable GameState).

JavaScript numbers are modelled as exact rationals; the two square roots of
calculateStandardError land in the reals.  The one call to Math.random in
selectNextItem (a uniformly random index into the tied candidate list) is
modelled by an explicit pick parameter reduced modulo the list length, so
statements quantify over every possible random draw.  Array indexing that
would throw a TypeError in JavaScript is modelled by the Except.error case.
-/

namespace ORRT

/-- Kind of an item: single letter, whole word, or letter-array choice item
(field type of interface WordItem). -/
inductive ItemType where
  | letter
  | word
  | letter_array
deriving DecidableEq

/-- Content of an item: one display string, or an ordered list of choice
strings for letter-array items. -/
inductive ItemContent where
  | single (s : String)
  | choices (l : List String)
deriving DecidableEq

/-- An item of the bank (interface WordItem).  The optional ipa and
properties metadata fields are carried by no core computation and are
omitted from the embedding. -/
structure WordItem where
  id : String
  content : ItemContent
  type : ItemType
  difficulty : ℚ
  target : Option String := none
deriving DecidableEq

/-- One administered trial (interface Response). -/
structure Response where
  itemId : String
  correct : Bool
  rt : ℚ
deriving DecidableEq

/-- The configuration record (interface CATConfig).  The two start-point
tables are association lists, as the source uses plain keyed records. -/
structure CATConfig where
  items : List WordItem
  startPointsAge : List (ℕ × ℚ)
  startPointsEducation : List (String × ℚ)
  maxItems : ℕ
  minItems : ℕ
  targetSE : ℚ
deriving DecidableEq

/-- The CAT_CONFIG value of src/src/index.ts: the start-point tables, and
minItems = DEFAULT_MIN_ITEMS = 40, maxItems = DEFAULT_MAX_ITEMS = 40,
targetSE = DEFAULT_TARGET_SE = 0.3.  The items list starts empty and is
populated at load time; no stopping-rule computation reads it. -/
def defaultConfig : CATConfig where
  items := []
  startPointsAge :=
    [(7, 1/2), (8, 1), (9, 2), (10, 3), (11, 7/2), (12, 4), (13, 9/2),
     (14, 5), (15, 11/2), (16, 6), (17, 13/2), (18, 7)]
  startPointsEducation :=
    [("less_than_high_school", 4), ("high_school", 5), ("some_college", 6),
     ("college", 7), ("graduate", 8)]
  maxItems := 40
  minItems := 40
  targetSE := 3/10

/-- The mutable session state (interface GameState).  The fields that only
drive presentation (participantData, isLoading) are omitted; the fields the
select/score/undo operations read and write are all present. -/
structure GameState where
  responses : List Response
  abilityEstimate : ℚ
  itemsAdministered : List String
  currentItem : Option WordItem
  isPractice : Bool
  practiceResponses : List Response
deriving DecidableEq

/-- Decidable prefix test on character lists (the elementary string
primitive used to model JavaScript String.indexOf substring search). -/
def isPrefixB : List Char → List Char → Bool
  | [], _ => true
  | _ :: _, [] => false
  | a :: s, b :: w => a == b && isPrefixB s w

/-- Substring containment on character lists: models
word.indexOf(sub) !== -1 from the source. -/
def isSubstrB (s : List Char) : List Char → Bool
  | [] => isPrefixB s []
  | b :: w => isPrefixB s (b :: w) || isSubstrB s w

/-- ORRWordBankLoader.calculateDifficulty: base value linear in the word's
frequency rank, additive surface-feature adjustments, clamped to
[3.0, 10.0].  JavaScript Math.min/Math.max clamp becomes min/max on ℚ. -/
def calculateDifficulty (rank : ℕ) (word : List Char) : ℚ :=
  let d0 : ℚ := 3 + (rank : ℚ) / 10000 * 7
  let d1 : ℚ :=
    if word.length > 12 then d0 + 3/2
    else if word.length > 8 then d0 + 7/10
    else if word.length > 6 then d0 + 3/10
    else if word.length < 4 then d0 - 1/2
    else d0
  let d2 : ℚ :=
    if isSubstrB ['p', 'h'] word || isSubstrB ['g', 'h'] word then d1 + 3/10 else d1
  let d3 : ℚ :=
    if isSubstrB ['t', 'i', 'o', 'n'] word || isSubstrB ['s', 'i', 'o', 'n'] word
    then d2 + 2/5 else d2
  let d4 : ℚ :=
    if isSubstrB ['o', 'u', 'g', 'h'] word || isSubstrB ['a', 'u', 'g', 'h'] word
    then d3 + 1/2 else d3
  min 10 (max 3 d4)

/-- getStartPoint: per-age table below 19, per-education table from 19 on.
The JavaScript lookup `table[key] || default` yields the default both for a
missing key and for a stored 0 (falsy), which the embedding reproduces. -/
def getStartPoint (cfg : CATConfig) (age : ℕ) (education : String) : ℚ :=
  if age < 19 then
    match cfg.startPointsAge.lookup age with
    | some v => if v = 0 then 3 else v
    | none => 3
  else
    match cfg.startPointsEducation.lookup education with
    | some v => if v = 0 then 5 else v
    | none => 5

/-- JavaScript Math.abs on the rationals (sign test and negate), used by
selectNextItem for every difficulty distance. -/
def absQ (x : ℚ) : ℚ := if x < 0 then -x else x

/-- Ordered insertion under a boolean comparison, the inner step of the
stable sort below. -/
def insertLe {α : Type} (le : α → α → Bool) (a : α) : List α → List α
  | [] => [a]
  | b :: l => if le a b then a :: b :: l else b :: insertLe le a l

/-- Stable insertion sort under a boolean comparison.  It models the
candidateItems.sort(...) call of selectNextItem: JavaScript requires a
stable comparator sort, and every stable sort agrees on a total comparator,
so this structurally recursive sort is the sort of the source. -/
def sortLe {α : Type} (le : α → α → Bool) : List α → List α
  | [] => []
  | a :: l => insertLe le a (sortLe le l)

/-- The not-yet-administered part of the bank: the availableItems filter at
the head of selectNextItem. -/
def availableItemsOf (items : List WordItem) (administeredItems : List String) :
    List WordItem :=
  items.filter (fun item => ! administeredItems.contains item.id)

/-- The candidate-narrowing stages of selectNextItem: the difficulty
tolerance band (with its fallback to all available items when empty) and,
on the very first selection only, the item-kind restriction. -/
def selectCandidates (items : List WordItem) (currentAbility : ℚ)
    (administeredItems : List String) : List WordItem :=
  let availableItems := availableItemsOf items administeredItems
  let isEarlyInTest := administeredItems.length < 3
  let difficultyTolerance : ℚ := if isEarlyInTest then 3/2 else 1/2
  let targetDifficulty := currentAbility
  let candidateItems := availableItems.filter
    (fun item => decide (absQ (item.difficulty - targetDifficulty) ≤ difficultyTolerance))
  let candidateItems := if candidateItems.length = 0 then availableItems else candidateItems
  if administeredItems.length = 0 then
    if currentAbility < 2 then
      candidateItems.filter
        (fun item => item.type == ItemType.letter_array || item.type == ItemType.letter)
    else if currentAbility < 7/2 then
      candidateItems.filter
        (fun item => item.type == ItemType.letter ||
          (item.type == ItemType.word && decide (item.difficulty < 4)))
    else candidateItems
  else candidateItems

/-- selectNextItem.  Except.ok none is the null return (no unadministered
item left); Except.error models a JavaScript TypeError from indexing an
empty array, so proving the error case unreachable is proving the source
throws no exception.  pick % length models Math.floor(Math.random() * length). -/
def selectNextItem (items : List WordItem) (currentAbility : ℚ)
    (administeredItems : List String) (pick : ℕ) : Except Unit (Option WordItem) :=
  let availableItems := availableItemsOf items administeredItems
  if availableItems.length = 0 then Except.ok none
  else
    let candidateItems := selectCandidates items currentAbility administeredItems
    if candidateItems.length = 0 then
      match availableItems.head? with
      | some item => Except.ok (some item)
      | none => Except.error ()
    else
      let isEarlyInTest := administeredItems.length < 3
      let targetDifficulty := currentAbility
      let sorted := sortLe
        (fun a b => decide (absQ (a.difficulty - targetDifficulty)
          ≤ absQ (b.difficulty - targetDifficulty)))
        candidateItems
      match sorted.head? with
      | none => Except.error ()
      | some best =>
        let tolerance : ℚ := if isEarlyInTest then 1/5 else 1/10
        let bestDiff := absQ (best.difficulty - targetDifficulty)
        let topCandidates := sorted.filter
          (fun item => decide (absQ (item.difficulty - targetDifficulty) ≤ bestDiff + tolerance))
        match topCandidates[pick % topCandidates.length]? with
        | some item => Except.ok (some item)
        | none => Except.error ()

/-- The selectNextItem of src/unnamed/part_000 (lines 339-381): identical
to the src/src/index.ts version in every filtering stage, but it lacks the
final empty-candidate fallback of index.ts (the block commented "Ensure we
have at least one item" that returns availableItems[0]).  It sorts the
possibly-empty candidate list and reads candidateItems[0].difficulty
directly; the head? = none case therefore models the TypeError that read
throws in JavaScript when the candidate list is empty. -/
def selectNextItemVariant (items : List WordItem) (currentAbility : ℚ)
    (administeredItems : List String) (pick : ℕ) : Except Unit (Option WordItem) :=
  let availableItems := availableItemsOf items administeredItems
  if availableItems.length = 0 then Except.ok none
  else
    let candidateItems := selectCandidates items currentAbility administeredItems
    let isEarlyInTest := administeredItems.length < 3
    let targetDifficulty := currentAbility
    let sorted := sortLe
      (fun a b => decide (absQ (a.difficulty - targetDifficulty)
        ≤ absQ (b.difficulty - targetDifficulty)))
      candidateItems
    match sorted.head? with
    | none => Except.error ()
    | some best =>
      let tolerance : ℚ := if isEarlyInTest then 1/5 else 1/10
      let bestDiff := absQ (best.difficulty - targetDifficulty)
      let topCandidates := sorted.filter
        (fun item => decide (absQ (item.difficulty - targetDifficulty) ≤ bestDiff + tolerance))
      match topCandidates[pick % topCandidates.length]? with
      | some item => Except.ok (some item)
      | none => Except.error ()

/-- The two running sums of the for-loop of updateAbilityEstimate: total
difficulty of resolvable responses, and total difficulty of the correct
resolvable responses. -/
def abilitySums (items : List WordItem) (responses : List Response) : ℚ × ℚ :=
  responses.foldl
    (fun acc r =>
      match items.find? (fun i => i.id == r.itemId) with
      | some item =>
          (acc.1 + item.difficulty, if r.correct then acc.2 + item.difficulty else acc.2)
      | none => acc)
    (0, 0)

/-- updateAbilityEstimate: 0 on an empty history, otherwise the 0.7/0.3
blend of the correct-difficulty average and the rescaled proportion
correct, with the sumDifficulty > 0 guard of the source. -/
def updateAbilityEstimate (items : List WordItem) (responses : List Response) : ℚ :=
  if responses.length = 0 then 0
  else
    let sums := abilitySums items responses
    let proportionCorrect : ℚ :=
      ((responses.filter (fun r => r.correct)).length : ℚ) / (responses.length : ℚ)
    let weightedScore : ℚ := if 0 < sums.1 then sums.2 / (responses.length : ℚ) else 0
    weightedScore * (7/10) + proportionCorrect * 10 * (3/10)

/-- calculateStandardError: 1 below three responses, otherwise the standard
error of the mean of the 0/1 correctness values over the most recent (at
most ten) responses.  slice(-10) is drop (length - 10). -/
noncomputable def calculateStandardError (responses : List Response) : ℝ :=
  if responses.length < 3 then 1
  else
    let recentResponses := responses.drop (responses.length - 10)
    let recentCorrect : List ℝ :=
      recentResponses.map (fun r => if r.correct then 1 else 0)
    let mean : ℝ := recentCorrect.sum / (recentCorrect.length : ℝ)
    let variance : ℝ :=
      (recentCorrect.map (fun v => (v - mean) ^ 2)).sum / (recentCorrect.length : ℝ)
    Real.sqrt variance / Real.sqrt (recentResponses.length : ℝ)

open Classical in
/-- shouldStopTest: never before minItems, always from maxItems on,
otherwise stop once the standard error drops under targetSE. -/
noncomputable def shouldStopTest (cfg : CATConfig) (responses : List Response) : Bool :=
  if responses.length < cfg.minItems then false
  else if cfg.maxItems ≤ responses.length then true
  else decide (calculateStandardError responses < (cfg.targetSE : ℝ))

/-- The on_finish handler of createSpacebarTrial, the single mutation point
of the session state.  Arguments mirror what the handler reads: the key
that ended the trial (ArrowLeft or space), and the correct / rt /
pause_requested fields of the preceding scoring-phase trial.  The handler
returns unchanged state when no current item is set or a pause was
requested; an ArrowLeft with a nonempty history pops the last response and
administered id and recomputes ability; every other case records a
response for the current item, appends its id, and recomputes ability. -/
def spacebarFinish (items : List WordItem) (st : GameState) (arrowLeft : Bool)
    (prevCorrect : Bool) (prevRt : ℚ) (pauseRequested : Bool) : GameState :=
  match st.currentItem with
  | none => st
  | some cur =>
    if pauseRequested then st
    else if st.isPractice then
      if arrowLeft = true ∧ 0 < st.practiceResponses.length then
        { st with practiceResponses := st.practiceResponses.dropLast }
      else
        { st with practiceResponses :=
            st.practiceResponses ++ [⟨cur.id, prevCorrect, prevRt⟩] }
    else
      if arrowLeft = true ∧ 0 < st.responses.length then
        let responses := st.responses.dropLast
        { st with
            responses := responses,
            itemsAdministered := st.itemsAdministered.dropLast,
            abilityEstimate := updateAbilityEstimate items responses }
      else
        let responses := st.responses ++ [⟨cur.id, prevCorrect, prevRt⟩]
        { st with
            responses := responses,
            itemsAdministered := st.itemsAdministered ++ [cur.id],
            abilityEstimate := updateAbilityEstimate items responses }

/-- Recording a response (the space-key path of the handler): the
recordResponse operation of the session. -/
def recordResponse (items : List WordItem) (st : GameState)
    (prevCorrect : Bool) (prevRt : ℚ) : GameState :=
  spacebarFinish items st false prevCorrect prevRt false

/-- Requesting an undo (the ArrowLeft path of the handler): the undoLast
operation of the session. -/
def undoLast (items : List WordItem) (st : GameState) : GameState :=
  spacebarFinish items st true false 0 false

/- Definitions written from the spec's words, for the refinement claims
about updateAbilityEstimate and calculateStandardError. -/

/-- Difficulty of the item a response refers to, when that item resolves in
the bank; 0 when it does not. -/
def resolvedDifficulty (items : List WordItem) (r : Response) : ℚ :=
  match items.find? (fun i => i.id == r.itemId) with
  | some item => item.difficulty
  | none => 0

/-- Spec wording: the sum of difficulties of correct responses whose item
resolves in the bank, divided by the total response count. -/
def weightedDifficultyScore (items : List WordItem) (responses : List Response) : ℚ :=
  ((responses.filter (fun r => r.correct)).map (resolvedDifficulty items)).sum
    / (responses.length : ℚ)

/-- Spec wording: the plain proportion of correct responses. -/
def proportionCorrectOf (responses : List Response) : ℚ :=
  ((responses.filter (fun r => r.correct)).length : ℚ) / (responses.length : ℚ)

/-- Spec wording: population variance of a list of reals. -/
noncomputable def popVariance (xs : List ℝ) : ℝ :=
  (xs.map (fun v => (v - xs.sum / (xs.length : ℝ)) ^ 2)).sum / (xs.length : ℝ)

/-- Spec wording: the most recent min(10, n) responses. -/
def recentWindow (responses : List Response) : List Response :=
  responses.drop (responses.length - min 10 responses.length)

/-!
Helper lemmas.

Shared facts about the sort, the filters and the candidate pipeline; the
claim theorems below build on these.
-/

theorem absQ_eq_abs (x : ℚ) : absQ x = |x| := by
  unfold absQ
  split_ifs with h
  · exact (abs_of_neg h).symm
  · exact (abs_of_nonneg (le_of_not_lt h)).symm

theorem mem_insertLe {α : Type} {le : α → α → Bool} {a x : α} {l : List α} :
    x ∈ insertLe le a l ↔ x = a ∨ x ∈ l := by
  induction l with
  | nil => simp [insertLe]
  | cons b t ih =>
    simp only [insertLe]
    split_ifs with h
    · simp [List.mem_cons]
    · simp only [List.mem_cons, ih]
      tauto

theorem mem_sortLe {α : Type} {le : α → α → Bool} {x : α} {l : List α} :
    x ∈ sortLe le l ↔ x ∈ l := by
  induction l with
  | nil => simp [sortLe]
  | cons a t ih => simp [sortLe, mem_insertLe, ih, List.mem_cons]

theorem length_insertLe {α : Type} (le : α → α → Bool) (a : α) (l : List α) :
    (insertLe le a l).length = l.length + 1 := by
  induction l with
  | nil => simp [insertLe]
  | cons b t ih =>
    simp only [insertLe]
    split_ifs with h
    · simp
    · simp [ih]

theorem length_sortLe {α : Type} (le : α → α → Bool) (l : List α) :
    (sortLe le l).length = l.length := by
  induction l with
  | nil => simp [sortLe]
  | cons a t ih => simp [sortLe, length_insertLe, ih]

theorem mem_availableItemsOf {items : List WordItem} {adm : List String} {x : WordItem} :
    x ∈ availableItemsOf items adm ↔ x ∈ items ∧ x.id ∉ adm := by
  simp only [availableItemsOf, List.mem_filter, Bool.not_eq_true']
  rw [show (adm.contains x.id = false) ↔ x.id ∉ adm from by
    cases h : adm.contains x.id <;> simp_all [List.contains, List.elem_iff]]

theorem selectCandidates_subset {items : List WordItem} {ability : ℚ}
    {adm : List String} {x : WordItem} (hx : x ∈ selectCandidates items ability adm) :
    x ∈ availableItemsOf items adm := by
  simp only [selectCandidates] at hx
  split_ifs at hx <;>
    first
      | exact hx
      | exact (List.mem_filter.1 hx).1
      | exact (List.mem_filter.1 (List.mem_filter.1 hx).1).1

theorem selectNextItem_ok_mem {items : List WordItem} {ability : ℚ}
    {adm : List String} {pick : ℕ} {item : WordItem}
    (h : selectNextItem items ability adm pick = Except.ok (some item)) :
    item ∈ availableItemsOf items adm := by
  simp only [selectNextItem] at h
  split_ifs at h with h0 h1 htol
  · simp at h
  · split at h
    next it hhead =>
      simp only [Except.ok.injEq, Option.some.injEq] at h
      subst h
      exact List.mem_of_mem_head? (by rw [Option.mem_def, hhead])
    next hhead => simp at h
  all_goals split at h
  any_goals simp at h
  all_goals rename_i best hhead
  all_goals split at h
  any_goals simp at h
  all_goals rename_i it hg
  all_goals subst h
  all_goals exact selectCandidates_subset (mem_sortLe.1 (List.mem_filter.1 (List.getElem?_mem hg)).1)

theorem selectNextItem_ok (items : List WordItem) (ability : ℚ)
    (adm : List String) (pick : ℕ) :
    ∃ r : Option WordItem, selectNextItem items ability adm pick = Except.ok r := by
  simp only [selectNextItem]
  generalize htol : (if adm.length < 3 then (1:ℚ)/5 else (1:ℚ)/10) = tol
  have htolpos : (0:ℚ) ≤ tol := by rw [← htol]; split_ifs <;> norm_num
  split_ifs with h0 h1
  · exact ⟨none, rfl⟩
  · cases he : (availableItemsOf items adm).head? with
    | none => exact absurd (by simp [List.head?_eq_none_iff.1 he]) h0
    | some it => exact ⟨some it, rfl⟩
  · cases hh : (sortLe (fun a b => decide (absQ (a.difficulty - ability) ≤ absQ (b.difficulty - ability))) (selectCandidates items ability adm)).head? with
    | none =>
      exact absurd (by simpa [length_sortLe] using congrArg List.length (List.head?_eq_none_iff.1 hh)) h1
    | some best =>
      dsimp only
      set tops := List.filter (fun item => decide (absQ (item.difficulty - ability) ≤ absQ (best.difficulty - ability) + tol)) (sortLe (fun a b => decide (absQ (a.difficulty - ability) ≤ absQ (b.difficulty - ability))) (selectCandidates items ability adm)) with htopsdef
      have hbest : best ∈ tops := by
        refine List.mem_filter.2 ⟨List.mem_of_mem_head? (by rw [Option.mem_def, hh]), ?_⟩
        simp only [decide_eq_true_eq]
        exact le_add_of_nonneg_right htolpos
      have hlen : 0 < tops.length := List.length_pos_of_mem hbest
      rw [List.getElem?_eq_getElem (Nat.mod_lt _ hlen)]
      exact ⟨some _, rfl⟩

theorem availableItemsOf_covered {items : List WordItem} {adm : List String}
    (h : ∀ it ∈ items, it.id ∈ adm) : availableItemsOf items adm = [] := by
  rw [availableItemsOf, List.filter_eq_nil_iff]
  intro a ha
  simp [List.contains, List.elem_iff, h a ha]

theorem selectNextItem_ok_mem_strong {items : List WordItem} {ability : ℚ}
    {adm : List String} {pick : ℕ} {item : WordItem}
    (hne : (selectCandidates items ability adm).length ≠ 0)
    (h : selectNextItem items ability adm pick = Except.ok (some item)) :
    item ∈ selectCandidates items ability adm := by
  have hav : ¬(availableItemsOf items adm).length = 0 := by
    intro h0
    rcases List.exists_mem_of_length_pos (Nat.pos_of_ne_zero hne) with ⟨x, hx⟩
    have := selectCandidates_subset hx
    rw [List.length_eq_zero.1 h0] at this
    simp at this
  simp only [selectNextItem] at h
  rw [if_neg hav, if_neg hne] at h
  split at h
  next hhead => simp at h
  next best hhead =>
    split at h
    next it hg =>
      simp only [Except.ok.injEq, Option.some.injEq] at h
      subst h
      exact mem_sortLe.1 (List.mem_filter.1 (List.getElem?_mem hg)).1
    next hg => simp at h

theorem selectCandidates_first_low_eq (items : List WordItem) (ability : ℚ)
    (hab : ability < 2) :
    selectCandidates items ability [] =
      (if (items.filter (fun item => decide (absQ (item.difficulty - ability) ≤ 3/2))).length = 0
       then items
       else items.filter (fun item => decide (absQ (item.difficulty - ability) ≤ 3/2))).filter
        (fun item => item.type == ItemType.letter_array || item.type == ItemType.letter) := by
  simp [selectCandidates, availableItemsOf, hab]

/-- Claim C1: selectNextItem never returns an already-administered item:
whenever it returns an item (rather than none), that item's id is not in
the administered-id list, for every bank, ability value, administered-id
list and random draw. -/
theorem selectNextItem_not_administered (items : List WordItem) (ability : ℚ)
    (administeredIds : List String) (pick : ℕ) (item : WordItem)
    (h : selectNextItem items ability administeredIds pick = Except.ok (some item)) :
    item.id ∉ administeredIds :=
  (mem_availableItemsOf.1 (selectNextItem_ok_mem h)).2

/-- Witness for C1: a concrete run of selectNextItem returning the item
with id L1 against the administered list containing only B1. -/
theorem selectNextItem_not_administered_witness :
    ("L1" : String) ∉ ["B1"] := by
  refine selectNextItem_not_administered
    [(⟨"L1", ItemContent.single ("A"), ItemType.letter, 1, none⟩ : WordItem)]
    1 ["B1"] 0 ⟨"L1", ItemContent.single ("A"), ItemType.letter, 1, none⟩ ?_
  norm_num [selectNextItem, selectCandidates, availableItemsOf, sortLe, insertLe, absQ,
    List.filter_cons, List.contains_cons, (by decide : ("L1" : String) ≠ "B1")]

/-- Totality of the src/src/index.ts selectNextItem: thanks to its
availableItems[0] fallback it returns a value for every bank, ability,
administered-id list and random draw (never the error that models a thrown
exception), and when the administered ids cover every item id of the bank
it returns none.  The part_000 variant does not share this property; see
the C7 theorem below. -/
theorem selectNextItem_total (items : List WordItem) (ability : ℚ)
    (administeredIds : List String) (pick : ℕ) :
    (∃ r : Option WordItem, selectNextItem items ability administeredIds pick = Except.ok r) ∧
    ((∀ item ∈ items, item.id ∈ administeredIds) →
      selectNextItem items ability administeredIds pick = Except.ok none) := by
  refine ⟨selectNextItem_ok items ability administeredIds pick, fun hcov => ?_⟩
  simp [selectNextItem, availableItemsOf_covered hcov]

/-- Concrete instance of the totality of the index.ts selectNextItem: an
exhausted one-item bank yields Except.ok none. -/
theorem selectNextItem_total_witness :
    selectNextItem [(⟨"L1", ItemContent.single ("A"), ItemType.letter, 1, none⟩ : WordItem)]
      1 ["L1"] 7 = Except.ok none := by
  refine (selectNextItem_total
    [(⟨"L1", ItemContent.single ("A"), ItemType.letter, 1, none⟩ : WordItem)] 1 ["L1"] 7).2 ?_
  decide

/-- Claim C7, evaluated at the failing input: the part_000 variant of
selectNextItem is not exception-free.  On the bank [word W1 difficulty
1/2, letter L1 difficulty 3] with ability 1/2 and empty administered set,
the tolerance filter keeps only the word, the first-selection kind filter
then empties the candidate list, and with no availableItems[0] fallback
the variant reads candidateItems[0].difficulty on the empty list: the
TypeError, modelled as Except.error. -/
theorem selectNextItemVariant_throws_cex :
    selectNextItemVariant
      [(⟨"W1", ItemContent.single ("ab"), ItemType.word, 1/2, none⟩ : WordItem),
       ⟨"L1", ItemContent.single ("A"), ItemType.letter, 3, none⟩]
      (1/2) [] 0 = Except.error () := by
  norm_num [selectNextItemVariant, selectCandidates, availableItemsOf, sortLe, insertLe, absQ,
    List.filter_cons,
    (by decide : ItemType.word ≠ ItemType.letter_array),
    (by decide : ItemType.word ≠ ItemType.letter),
    (by decide : ItemType.letter ≠ ItemType.letter_array)]

/-- Counterexample to C8 as stated: ability 1/2 < 2, empty administered
set, and the bank holds a letter item (difficulty 3, outside the early
tolerance band around 1/2) next to a word item of difficulty 1/2; the
first-selection kind filter empties the candidate list, the code falls
back to availableItems[0], and a word is returned even though a letter
exists in the bank. -/
theorem selectNextItem_first_low_cex :
    selectNextItem
      [(⟨"W1", ItemContent.single ("ab"), ItemType.word, 1/2, none⟩ : WordItem),
       ⟨"L1", ItemContent.single ("A"), ItemType.letter, 3, none⟩]
      (1/2) [] 0
      = Except.ok (some ⟨"W1", ItemContent.single ("ab"), ItemType.word, 1/2, none⟩)
    ∧ (⟨"W1", ItemContent.single ("ab"), ItemType.word, 1/2, none⟩ : WordItem).type
        = ItemType.word
    ∧ (⟨"L1", ItemContent.single ("A"), ItemType.letter, 3, none⟩ : WordItem) ∈
        [(⟨"W1", ItemContent.single ("ab"), ItemType.word, 1/2, none⟩ : WordItem),
         ⟨"L1", ItemContent.single ("A"), ItemType.letter, 3, none⟩]
    ∧ (⟨"L1", ItemContent.single ("A"), ItemType.letter, 3, none⟩ : WordItem).type
        = ItemType.letter
    ∧ ((1:ℚ)/2 < 2) := by
  refine ⟨?_, rfl, by simp, rfl, by norm_num⟩
  norm_num [selectNextItem, selectCandidates, availableItemsOf, sortLe, insertLe, absQ,
    List.filter_cons,
    (by decide : ItemType.word ≠ ItemType.letter_array),
    (by decide : ItemType.word ≠ ItemType.letter),
    (by decide : ItemType.letter ≠ ItemType.letter_array)]

/-- Claim C8 amended: on the very first selection (empty administered set)
with ability below 2.0, selectNextItem returns a letter or letter_array
item whenever such an item exists within the early difficulty-tolerance
band (distance at most 1.5 from the ability); with no such item in the
band the kind filter can be emptied and the availableItems[0] fallback may
return a word. -/
theorem selectNextItem_first_low_kind (items : List WordItem) (ability : ℚ)
    (pick : ℕ) (item it0 : WordItem)
    (hab : ability < 2)
    (hit0 : it0 ∈ items)
    (hkind : it0.type = ItemType.letter ∨ it0.type = ItemType.letter_array)
    (htol : absQ (it0.difficulty - ability) ≤ 3/2)
    (h : selectNextItem items ability [] pick = Except.ok (some item)) :
    item.type = ItemType.letter ∨ item.type = ItemType.letter_array := by
  have heq := selectCandidates_first_low_eq items ability hab
  have hc0 : it0 ∈ items.filter
      (fun item => decide (absQ (item.difficulty - ability) ≤ 3/2)) :=
    List.mem_filter.2 ⟨hit0, by simpa using htol⟩
  have hkb : (it0.type == ItemType.letter_array || it0.type == ItemType.letter) = true := by
    rcases hkind with hk | hk <;> simp [hk]
  have hmem : it0 ∈ selectCandidates items ability [] := by
    rw [heq]
    refine List.mem_filter.2 ⟨?_, hkb⟩
    split_ifs with hlen
    · exact hit0
    · exact hc0
  have hne : (selectCandidates items ability []).length ≠ 0 := by
    intro h0
    rw [List.length_eq_zero.1 h0] at hmem
    simp at hmem
  have hitem := selectNextItem_ok_mem_strong hne h
  rw [heq] at hitem
  have hpred := (List.mem_filter.1 hitem).2
  simp only [Bool.or_eq_true, beq_iff_eq] at hpred
  tauto

/-- Witness for the amended C8: a lone letter item of difficulty 1 at
ability 1/2 is selected and its kind is letter. -/
theorem selectNextItem_first_low_kind_witness :
    (⟨"L1", ItemContent.single ("A"), ItemType.letter, 1, none⟩ : WordItem).type
        = ItemType.letter
      ∨ (⟨"L1", ItemContent.single ("A"), ItemType.letter, 1, none⟩ : WordItem).type
        = ItemType.letter_array := by
  refine selectNextItem_first_low_kind
    [(⟨"L1", ItemContent.single ("A"), ItemType.letter, 1, none⟩ : WordItem)] (1/2) 0
    ⟨"L1", ItemContent.single ("A"), ItemType.letter, 1, none⟩
    ⟨"L1", ItemContent.single ("A"), ItemType.letter, 1, none⟩
    (by norm_num) (by simp) (Or.inl rfl) (by norm_num [absQ]) ?_
  norm_num [selectNextItem, selectCandidates, availableItemsOf, sortLe, insertLe, absQ,
    List.filter_cons,
    (by decide : ItemType.letter ≠ ItemType.letter_array)]

/-- Claim C2: the stopping rule, read in the order of its checks: below
minItems it never stops; from minItems on it always stops once maxItems is
reached, regardless of the correctness pattern; strictly between the two
bounds it stops exactly when the standard error is below targetSE. -/
theorem shouldStopTest_spec (cfg : CATConfig) (responses : List Response) :
    (responses.length < cfg.minItems → shouldStopTest cfg responses = false) ∧
    (cfg.minItems ≤ responses.length → cfg.maxItems ≤ responses.length →
      shouldStopTest cfg responses = true) ∧
    (cfg.minItems ≤ responses.length → responses.length < cfg.maxItems →
      (shouldStopTest cfg responses = true ↔
        calculateStandardError responses < (cfg.targetSE : ℝ))) := by
  refine ⟨fun h => ?_, fun h1 h2 => ?_, fun h1 h2 => ?_⟩
  · simp [shouldStopTest, h]
  · simp [shouldStopTest, not_lt.2 h1, h2]
  · simp [shouldStopTest, not_lt.2 h1, not_le.2 h2]

/-- Witness for C2, Scenario A of the spec: minItems = maxItems = 3 and
three administered items (all incorrect here) force a stop. -/
theorem shouldStopTest_spec_witness :
    shouldStopTest ⟨[], [], [], 3, 3, 3/10⟩
      [⟨"a", false, 0⟩, ⟨"b", false, 0⟩, ⟨"c", false, 0⟩] = true :=
  (shouldStopTest_spec ⟨[], [], [], 3, 3, 3/10⟩
      [⟨"a", false, 0⟩, ⟨"b", false, 0⟩, ⟨"c", false, 0⟩]).2.1
    (by decide) (by decide)

theorem calculateStandardError_of_lt {responses : List Response}
    (h : responses.length < 3) : calculateStandardError responses = 1 := by
  simp [calculateStandardError, h]

theorem calculateStandardError_of_ge {responses : List Response}
    (h : 3 ≤ responses.length) :
    calculateStandardError responses =
      Real.sqrt (popVariance ((recentWindow responses).map
        (fun r => if r.correct then (1:ℝ) else 0)))
        / Real.sqrt ((min 10 responses.length : ℕ) : ℝ) := by
  have hlt : ¬ responses.length < 3 := not_lt.2 h
  have hdrop : responses.length - min 10 responses.length = responses.length - 10 := by
    omega
  have hlen : (responses.drop (responses.length - 10)).length
      = min 10 responses.length := by
    rw [List.length_drop]; omega
  simp only [calculateStandardError, if_neg hlt, recentWindow, popVariance, hdrop,
    List.length_map]
  rw [hlen]

/-- Claim C4: calculateStandardError returns exactly 1 below three
responses; otherwise it is sqrt of the population variance of the 0/1
correctness values over the most recent min(10, n) responses, divided by
sqrt of that window size. -/
theorem calculateStandardError_spec (responses : List Response) :
    (responses.length < 3 → calculateStandardError responses = 1) ∧
    (3 ≤ responses.length →
      calculateStandardError responses =
        Real.sqrt (popVariance ((recentWindow responses).map
          (fun r => if r.correct then (1:ℝ) else 0)))
          / Real.sqrt ((min 10 responses.length : ℕ) : ℝ)) :=
  ⟨fun h => calculateStandardError_of_lt h, fun h => calculateStandardError_of_ge h⟩

/-- Witness for C4: the empty history has standard error exactly 1. -/
theorem calculateStandardError_spec_witness :
    calculateStandardError [] = 1 :=
  (calculateStandardError_spec []).1 (by decide)

theorem abilitySums_eq (items : List WordItem) (rs : List Response) :
    abilitySums items rs =
      ((rs.map (resolvedDifficulty items)).sum,
       ((rs.filter (fun r => r.correct)).map (resolvedDifficulty items)).sum) := by
  have key : ∀ (l : List Response) (a b : ℚ),
      l.foldl (fun acc r =>
        match items.find? (fun i => i.id == r.itemId) with
        | some item =>
            (acc.1 + item.difficulty, if r.correct then acc.2 + item.difficulty else acc.2)
        | none => acc) (a, b)
      = (a + (l.map (resolvedDifficulty items)).sum,
         b + ((l.filter (fun r => r.correct)).map (resolvedDifficulty items)).sum) := by
    intro l
    induction l with
    | nil => intro a b; simp
    | cons r t ih =>
      intro a b
      cases hf : items.find? (fun i => i.id == r.itemId) with
      | none =>
        cases hc : r.correct with
        | true =>
          rw [List.filter_cons_of_pos (by simp [hc])]
          simp [ih, resolvedDifficulty, hf, hc]
        | false =>
          rw [List.filter_cons_of_neg (by simp [hc])]
          simp [ih, resolvedDifficulty, hf, hc]
      | some item =>
        cases hc : r.correct with
        | true =>
          rw [List.filter_cons_of_pos (by simp [hc])]
          simp [ih, resolvedDifficulty, hf, hc, add_assoc]
        | false =>
          rw [List.filter_cons_of_neg (by simp [hc])]
          simp [ih, resolvedDifficulty, hf, hc, add_assoc]
  simpa using key rs 0 0

theorem resolvedDifficulty_nonneg {items : List WordItem}
    (hpos : ∀ it ∈ items, 0 ≤ it.difficulty) (r : Response) :
    0 ≤ resolvedDifficulty items r := by
  unfold resolvedDifficulty
  cases hf : items.find? (fun i => i.id == r.itemId) with
  | none => exact le_refl 0
  | some it => exact hpos it (List.mem_of_find?_eq_some hf)

/-- Claim C3: updateAbilityEstimate is 0 on the empty history and
otherwise equals 0.7 times the weighted difficulty score (sum of
difficulties of correct bank-resolvable responses over the total count)
plus 0.3 times ten times the proportion correct.  The hypothesis that
every bank difficulty is nonnegative reflects the constructed bank
(letters 0.5 to 2.7, arrays 0.3 to 1.5, words clamped to at least 3.0) and
discharges the sumDifficulty > 0 guard of the source. -/
theorem updateAbilityEstimate_formula (items : List WordItem) (responses : List Response)
    (hpos : ∀ it ∈ items, 0 ≤ it.difficulty) :
    updateAbilityEstimate items [] = 0 ∧
    (responses ≠ [] →
      updateAbilityEstimate items responses =
        7/10 * weightedDifficultyScore items responses
          + 3/10 * (proportionCorrectOf responses * 10)) := by
  constructor
  · rfl
  · intro hne
    have hlen : ¬ responses.length = 0 := by simpa [List.length_eq_zero] using hne
    simp only [updateAbilityEstimate, if_neg hlen, abilitySums_eq]
    have hSA : (0:ℚ) ≤ (responses.map (resolvedDifficulty items)).sum := by
      refine List.sum_nonneg ?_
      intro x hx
      rcases List.mem_map.1 hx with ⟨r, _, rfl⟩
      exact resolvedDifficulty_nonneg hpos r
    have hSC : (0:ℚ) ≤ ((responses.filter (fun r => r.correct)).map
        (resolvedDifficulty items)).sum := by
      refine List.sum_nonneg ?_
      intro x hx
      rcases List.mem_map.1 hx with ⟨r, _, rfl⟩
      exact resolvedDifficulty_nonneg hpos r
    have hle : ((responses.filter (fun r => r.correct)).map
          (resolvedDifficulty items)).sum
        ≤ (responses.map (resolvedDifficulty items)).sum := by
      refine List.Sublist.sum_le_sum ((List.filter_sublist responses).map _) ?_
      intro x hx
      rcases List.mem_map.1 hx with ⟨r, _, rfl⟩
      exact resolvedDifficulty_nonneg hpos r
    by_cases hp : 0 < (responses.map (resolvedDifficulty items)).sum
    · rw [if_pos hp]
      unfold weightedDifficultyScore proportionCorrectOf
      ring
    · rw [if_neg hp]
      have hSA0 : (responses.map (resolvedDifficulty items)).sum = 0 :=
        le_antisymm (not_lt.1 hp) hSA
      have hSC0 : ((responses.filter (fun r => r.correct)).map
          (resolvedDifficulty items)).sum = 0 :=
        le_antisymm (by rw [← hSA0]; exact hle) hSC
      unfold weightedDifficultyScore proportionCorrectOf
      rw [hSC0]
      ring

/-- Witness for C3: a single correct response on a one-item bank of
difficulty 2 satisfies the formula. -/
theorem updateAbilityEstimate_formula_witness :
    updateAbilityEstimate
      [(⟨"L1", ItemContent.single ("A"), ItemType.letter, 2, none⟩ : WordItem)]
      [⟨"L1", true, 5⟩]
      = 7/10 * weightedDifficultyScore
          [(⟨"L1", ItemContent.single ("A"), ItemType.letter, 2, none⟩ : WordItem)]
          [⟨"L1", true, 5⟩]
        + 3/10 * (proportionCorrectOf [⟨"L1", true, 5⟩] * 10) :=
  (updateAbilityEstimate_formula
    [(⟨"L1", ItemContent.single ("A"), ItemType.letter, 2, none⟩ : WordItem)]
    [⟨"L1", true, 5⟩]
    (by norm_num)).2 (by simp)

/-- Claim C9: at every frequency rank the word list can supply (the source
list holds at most 10000 words), the word photograph (length 10, containing
the digraph ph, adjustments +0.7 and +0.3) receives a strictly higher
clamped difficulty than the word cat (length 3, adjustment -0.5). -/
theorem calculateDifficulty_photograph_gt_cat (rank : ℕ) (hrank : rank ≤ 10000) :
    calculateDifficulty rank ['c', 'a', 't']
      < calculateDifficulty rank ['p', 'h', 'o', 't', 'o', 'g', 'r', 'a', 'p', 'h'] := by
  have hphoto : calculateDifficulty rank ['p', 'h', 'o', 't', 'o', 'g', 'r', 'a', 'p', 'h']
      = min 10 (max 3 (3 + (rank : ℚ) / 10000 * 7 + 7/10 + 3/10)) := rfl
  have hcat : calculateDifficulty rank ['c', 'a', 't']
      = min 10 (max 3 (3 + (rank : ℚ) / 10000 * 7 - 1/2)) := rfl
  rw [hphoto, hcat]
  have hrq : (rank : ℚ) ≤ 10000 := by exact_mod_cast hrank
  have h0 : (0:ℚ) ≤ (rank : ℚ) / 10000 * 7 := by positivity
  have h7 : (rank : ℚ) / 10000 * 7 ≤ 7 := by
    rw [div_mul_eq_mul_div, div_le_iff₀ (by norm_num : (0:ℚ) < 10000)]
    nlinarith
  rw [min_def, min_def, max_def, max_def]
  split_ifs <;> linarith

/-- Witness for C9: rank 100 gives cat difficulty 3.0 and photograph
difficulty 4.07. -/
theorem calculateDifficulty_photograph_gt_cat_witness :
    calculateDifficulty 100 ['c', 'a', 't']
      < calculateDifficulty 100 ['p', 'h', 'o', 't', 'o', 'g', 'r', 'a', 'p', 'h'] :=
  calculateDifficulty_photograph_gt_cat 100 (by decide)

/-- Counterexample to C5 as stated: at session start the ability estimate
is the demographic start point (3.0 in the default state), not the
estimator's value for the empty history (0); recording the first response
and undoing it therefore resets ability to 0, not to the prior 3.0. -/
theorem record_undo_cex :
    (undoLast [(⟨"L1", ItemContent.single ("A"), ItemType.letter, 1, none⟩ : WordItem)]
        (recordResponse [(⟨"L1", ItemContent.single ("A"), ItemType.letter, 1, none⟩ : WordItem)]
          ⟨[], 3, [], some ⟨"L1", ItemContent.single ("A"), ItemType.letter, 1, none⟩,
            false, []⟩
          true 100)).abilityEstimate
      ≠ (⟨[], 3, [], some ⟨"L1", ItemContent.single ("A"), ItemType.letter, 1, none⟩,
            false, []⟩ : GameState).abilityEstimate := by
  decide

/-- Claim C5 amended: undo is a left inverse of recordResponse on every
Testing state whose ability estimate is itself the estimator's value for
its history (true of every state reached by recording; false only at
session start, where ability is the demographic start point): the response
sequence, administered ids and ability estimate are restored exactly. -/
theorem record_undo_left_inverse (items : List WordItem) (st : GameState)
    (cur : WordItem) (correct : Bool) (rt : ℚ)
    (hcur : st.currentItem = some cur)
    (hpr : st.isPractice = false)
    (hab : st.abilityEstimate = updateAbilityEstimate items st.responses) :
    (undoLast items (recordResponse items st correct rt)).responses = st.responses ∧
    (undoLast items (recordResponse items st correct rt)).itemsAdministered
      = st.itemsAdministered ∧
    (undoLast items (recordResponse items st correct rt)).abilityEstimate
      = st.abilityEstimate := by
  simp [undoLast, recordResponse, spacebarFinish, hcur, hpr, hab]

/-- Witness for the amended C5: the start state with ability 0 (which is
the estimator's value on the empty history) is restored exactly. -/
theorem record_undo_left_inverse_witness :
    (undoLast [(⟨"L1", ItemContent.single ("A"), ItemType.letter, 1, none⟩ : WordItem)]
        (recordResponse [(⟨"L1", ItemContent.single ("A"), ItemType.letter, 1, none⟩ : WordItem)]
          ⟨[], 0, [], some ⟨"L1", ItemContent.single ("A"), ItemType.letter, 1, none⟩,
            false, []⟩
          true 100)).responses = [] ∧
    (undoLast [(⟨"L1", ItemContent.single ("A"), ItemType.letter, 1, none⟩ : WordItem)]
        (recordResponse [(⟨"L1", ItemContent.single ("A"), ItemType.letter, 1, none⟩ : WordItem)]
          ⟨[], 0, [], some ⟨"L1", ItemContent.single ("A"), ItemType.letter, 1, none⟩,
            false, []⟩
          true 100)).itemsAdministered = [] ∧
    (undoLast [(⟨"L1", ItemContent.single ("A"), ItemType.letter, 1, none⟩ : WordItem)]
        (recordResponse [(⟨"L1", ItemContent.single ("A"), ItemType.letter, 1, none⟩ : WordItem)]
          ⟨[], 0, [], some ⟨"L1", ItemContent.single ("A"), ItemType.letter, 1, none⟩,
            false, []⟩
          true 100)).abilityEstimate = 0 :=
  record_undo_left_inverse
    [(⟨"L1", ItemContent.single ("A"), ItemType.letter, 1, none⟩ : WordItem)]
    ⟨[], 0, [], some ⟨"L1", ItemContent.single ("A"), ItemType.letter, 1, none⟩, false, []⟩
    ⟨"L1", ItemContent.single ("A"), ItemType.letter, 1, none⟩ true 100
    rfl rfl rfl

/-- Claim C6, evaluated at the failing input: an ArrowLeft (undo) request
arriving with an empty response history while a current item with a
pending score is set falls through to the record branch: a response is
appended (and its id administered), the opposite of a no-op. -/
theorem emptyUndo_records_cex :
    (spacebarFinish [(⟨"L1", ItemContent.single ("A"), ItemType.letter, 1, none⟩ : WordItem)]
        ⟨[], 3, [], some ⟨"L1", ItemContent.single ("A"), ItemType.letter, 1, none⟩,
          false, []⟩
        true true 100 false).responses = [⟨"L1", true, 100⟩] ∧
    (spacebarFinish [(⟨"L1", ItemContent.single ("A"), ItemType.letter, 1, none⟩ : WordItem)]
        ⟨[], 3, [], some ⟨"L1", ItemContent.single ("A"), ItemType.letter, 1, none⟩,
          false, []⟩
        true true 100 false).itemsAdministered = ["L1"] := by
  constructor <;> decide

theorem sum_sub_sq (c : ℝ) (xs : List ℝ) :
    (xs.map (fun v => (v - c) ^ 2)).sum
      = (xs.map (fun v => v ^ 2)).sum - 2 * c * xs.sum + xs.length * c ^ 2 := by
  induction xs with
  | nil => simp
  | cons x t ih =>
    simp only [List.map_cons, List.sum_cons, List.length_cons, ih]
    push_cast
    ring

theorem sum_sq_of_01 {xs : List ℝ} (h : ∀ x ∈ xs, x = 0 ∨ x = 1) :
    (xs.map (fun v => v ^ 2)).sum = xs.sum := by
  induction xs with
  | nil => simp
  | cons x t ih =>
    have hx := h x (List.mem_cons_self x t)
    have ht := ih (fun y hy => h y (List.mem_cons_of_mem x hy))
    rcases hx with hx | hx <;> simp [hx, ht]

theorem sum_nonneg_of_01 {xs : List ℝ} (h : ∀ x ∈ xs, x = 0 ∨ x = 1) :
    0 ≤ xs.sum := by
  refine List.sum_nonneg ?_
  intro x hx
  rcases h x hx with hx1 | hx1 <;> simp [hx1]

theorem sum_le_length_of_01 {xs : List ℝ} (h : ∀ x ∈ xs, x = 0 ∨ x = 1) :
    xs.sum ≤ xs.length := by
  induction xs with
  | nil => simp
  | cons x t ih =>
    have hx := h x (List.mem_cons_self x t)
    have ht := ih (fun y hy => h y (List.mem_cons_of_mem x hy))
    simp only [List.sum_cons, List.length_cons]
    push_cast
    rcases hx with hx1 | hx1 <;> rw [hx1] <;> linarith

theorem popVariance_of_01 {xs : List ℝ} (hne : xs ≠ [])
    (h : ∀ x ∈ xs, x = 0 ∨ x = 1) :
    popVariance xs = xs.sum / xs.length * (1 - xs.sum / xs.length) := by
  have hn : (0:ℝ) < xs.length := by
    exact_mod_cast List.length_pos.2 hne
  unfold popVariance
  rw [sum_sub_sq, sum_sq_of_01 h]
  field_simp
  ring

theorem popVariance_nonneg (xs : List ℝ) : 0 ≤ popVariance xs := by
  unfold popVariance
  refine div_nonneg (List.sum_nonneg ?_) (by positivity)
  intro x hx
  rcases List.mem_map.1 hx with ⟨v, _, rfl⟩
  positivity

theorem popVariance_le_quarter {xs : List ℝ} (hne : xs ≠ [])
    (h : ∀ x ∈ xs, x = 0 ∨ x = 1) :
    popVariance xs ≤ 1/4 := by
  rw [popVariance_of_01 hne h]
  have hn : (0:ℝ) < xs.length := by exact_mod_cast List.length_pos.2 hne
  have h0 : 0 ≤ xs.sum / xs.length := div_nonneg (sum_nonneg_of_01 h) hn.le
  have h1 : xs.sum / xs.length ≤ 1 := by
    rw [div_le_one hn]
    exact sum_le_length_of_01 h
  nlinarith [sq_nonneg (xs.sum / xs.length - 1/2)]

/-- Claim C10: once three responses exist, the standard error lies in
[0, (1/2)/sqrt 3] (about 0.289) and is therefore strictly below the
default targetSE of 0.3; and under the default configuration (minItems =
maxItems = 40) shouldStopTest is true exactly when the response count has
reached minItems. -/
theorem calculateStandardError_below_default_target (responses : List Response) :
    (3 ≤ responses.length →
      0 ≤ calculateStandardError responses ∧
      calculateStandardError responses ≤ 1/2 / Real.sqrt 3 ∧
      calculateStandardError responses < 3/10) ∧
    (shouldStopTest defaultConfig responses = true ↔
      defaultConfig.minItems ≤ responses.length) := by
  constructor
  · intro h3
    rw [calculateStandardError_of_ge h3]
    set xs : List ℝ := (recentWindow responses).map
      (fun r => if r.correct then (1:ℝ) else 0) with hxs
    have h01 : ∀ x ∈ xs, x = 0 ∨ x = 1 := by
      intro x hx
      rcases List.mem_map.1 hx with ⟨r, _, rfl⟩
      cases r.correct <;> simp
    have hlenxs : xs.length = min 10 responses.length := by
      rw [hxs, List.length_map, recentWindow, List.length_drop]
      omega
    have hne : xs ≠ [] := by
      intro hnil
      rw [hnil] at hlenxs
      simp at hlenxs
      omega
    have hm3 : (3:ℝ) ≤ ((min 10 responses.length : ℕ) : ℝ) := by
      have : 3 ≤ min 10 responses.length := by omega
      exact_mod_cast this
    have hs3pos : (0:ℝ) < Real.sqrt 3 := Real.sqrt_pos.2 (by norm_num)
    have hsm : Real.sqrt 3 ≤ Real.sqrt ((min 10 responses.length : ℕ) : ℝ) :=
      Real.sqrt_le_sqrt hm3
    have hvar : Real.sqrt (popVariance xs) ≤ 1/2 := by
      have h4 : Real.sqrt (popVariance xs) ≤ Real.sqrt (1/4) :=
        Real.sqrt_le_sqrt (popVariance_le_quarter hne h01)
      have : Real.sqrt (1/4) = 1/2 := by
        rw [show (1/4:ℝ) = (1/2)^2 by norm_num, Real.sqrt_sq (by norm_num)]
      linarith
    have hmain : Real.sqrt (popVariance xs)
        / Real.sqrt ((min 10 responses.length : ℕ) : ℝ) ≤ 1/2 / Real.sqrt 3 :=
      div_le_div₀ (by norm_num) hvar hs3pos hsm
    refine ⟨div_nonneg (Real.sqrt_nonneg _) (Real.sqrt_nonneg _), hmain, ?_⟩
    have h53 : (5/3:ℝ) < Real.sqrt 3 := by
      nlinarith [Real.sq_sqrt (by norm_num : (0:ℝ) ≤ 3), Real.sqrt_nonneg 3]
    have hlast : (1/2:ℝ) / Real.sqrt 3 < 3/10 := by
      have := div_lt_div_of_pos_left (by norm_num : (0:ℝ) < 1/2)
        (by norm_num : (0:ℝ) < 5/3) h53
      linarith [this, show (1/2:ℝ) / (5/3) = 3/10 by norm_num]
    linarith
  · by_cases h40 : responses.length < 40
    · simp only [shouldStopTest, defaultConfig, if_pos h40]
      constructor
      · intro hfalse
        exact absurd hfalse (by simp)
      · intro hle
        omega
    · have h40le : 40 ≤ responses.length := not_lt.1 h40
      simp only [shouldStopTest, defaultConfig, if_neg h40, if_pos h40le]
      simpa using h40le

/-- Witness for C10: three incorrect responses give a standard error that
is nonnegative, at most (1/2)/sqrt 3, and below 0.3. -/
theorem calculateStandardError_below_default_target_witness :
    0 ≤ calculateStandardError [⟨"a", false, 0⟩, ⟨"b", false, 0⟩, ⟨"c", false, 0⟩] ∧
    calculateStandardError [⟨"a", false, 0⟩, ⟨"b", false, 0⟩, ⟨"c", false, 0⟩]
      ≤ 1/2 / Real.sqrt 3 ∧
    calculateStandardError [⟨"a", false, 0⟩, ⟨"b", false, 0⟩, ⟨"c", false, 0⟩] < 3/10 :=
  (calculateStandardError_below_default_target
    [⟨"a", false, 0⟩, ⟨"b", false, 0⟩, ⟨"c", false, 0⟩]).1 (by decide)

end ORRT
